import Mathlib

/-!
# Verification of the pysigma aggregation engine and condition compiler

Shallow embedding of `src/pysigma/aggregation.py` and the condition-predicate
semantics produced by the transformer in `src/pysigma/parser.py`.

Modelling conventions:
* Python dicts are association lists `List (String × α)`; assignment replaces
  in place (keeping the key's position) or appends a fresh key at the end,
  matching CPython insertion-order semantics.
* Python numbers are exact rationals `ℚ` (the claims under check do not
  depend on IEEE-754 rounding).
* `datetime` instants and `timedelta` durations are integers (seconds).
* Code that can raise is embedded in `Except Unit`; `Except.error ()` marks a
  raised exception (the only uncaught one in scope is the `ValueError` from
  `int(timeframe[:-1])` in `AggregationState._parse_timeframe`).
-/

deriving instance DecidableEq for Except

/-- A Python value as stored in an event dict: `None`, an `int`, a `float`,
a `str`, or a `datetime` instant (modelled by seconds). -/
inductive Value where
  | vNull : Value
  | vInt : Int → Value
  | vFloat : ℚ → Value
  | vStr : String → Value
  | vTime : Int → Value
deriving DecidableEq, Repr

/-- An event is a Python dict from field names to values. -/
abbrev Event := List (String × Value)

/-- Python `str.strip()` over a character list. -/
def trimChars (l : List Char) : List Char :=
  ((l.dropWhile Char.isWhitespace).reverse.dropWhile Char.isWhitespace).reverse

/-- Parse a nonempty all-decimal-digit character list. -/
def digitsToNat? (l : List Char) : Option Nat :=
  if l ≠ [] ∧ l.all Char.isDigit then
    some (l.foldl (fun a c => a * 10 + (c.toNat - 48)) 0)
  else none

/-- Optional sign followed by digits. -/
def pyIntChars? (l : List Char) : Option Int :=
  match trimChars l with
  | '-' :: rest => (digitsToNat? rest).map (fun n => -(n : Int))
  | '+' :: rest => (digitsToNat? rest).map (fun n => (n : Int))
  | t => (digitsToNat? t).map (fun n => (n : Int))

/-- Model of Python `int(s)`: strip whitespace, optional sign, decimal digits.
(Underscore separators are not modelled; no claim depends on them.) -/
def pyInt? (s : String) : Option Int := pyIntChars? s.data

/-- Split a character list on the `.` character. -/
def splitDot : List Char → List (List Char)
  | [] => [[]]
  | c :: rest =>
    match splitDot rest with
    | [] => [[c]]
    | h :: t => if c = '.' then [] :: h :: t else (c :: h) :: t

/-- Unsigned decimal part of Python `float(s)`: `digits`, `digits.digits`,
`.digits` or `digits.` (exponents / `inf` / `nan` are not modelled; no claim
depends on them). -/
def pyFloatCore? (t : List Char) : Option ℚ :=
  match splitDot t with
  | [a] => (digitsToNat? a).map (fun n => (n : ℚ))
  | [a, b] =>
    if a = [] ∧ b = [] then none
    else
      match (if a = [] then some 0 else digitsToNat? a),
            (if b = [] then some 0 else digitsToNat? b) with
      | some x, some y => some ((x : ℚ) + (y : ℚ) / ((10 : ℚ) ^ b.length))
      | _, _ => none
  | _ => none

/-- Model of Python `float(s)` on decimal literals. -/
def pyFloat? (s : String) : Option ℚ :=
  match trimChars s.data with
  | '-' :: rest => (pyFloatCore? rest).map (fun q => -q)
  | '+' :: rest => pyFloatCore? rest
  | t => pyFloatCore? t

/-- Numeric view of a value (Python `int` and `float` compare numerically). -/
def Value.toNum? : Value → Option ℚ
  | Value.vInt n => some (n : ℚ)
  | Value.vFloat q => some q
  | _ => none

/-- Model of Python `==` between event-field values: numbers compare
numerically across `int`/`float`, everything else by structural equality. -/
def Value.pyEq (a b : Value) : Bool :=
  match Value.toNum? a, Value.toNum? b with
  | some x, some y => decide (x = y)
  | _, _ => decide (a = b)

/-- Model of Python `float(val)` coercion of a stored value
(`aggregation.py` lines 183-186): ints and floats coerce, numeric strings
parse, `None`/datetimes raise (hence yield `none` and are discarded). -/
def Value.toFloat? : Value → Option ℚ
  | Value.vInt n => some (n : ℚ)
  | Value.vFloat q => some q
  | Value.vStr s => pyFloat? s
  | Value.vNull => none
  | Value.vTime _ => none

/-- First-match association-list lookup (Python `dict.get` / `in`). -/
def lookupKV {α : Type} (d : List (String × α)) (k : String) : Option α :=
  match d with
  | [] => none
  | (k2, v) :: rest => if k2 = k then some v else lookupKV rest k

/-- Dict assignment `d[k] = v`: replace in place, else append at the end. -/
def dset {α : Type} (d : List (String × α)) (k : String) (v : α) :
    List (String × α) :=
  match d with
  | [] => [(k, v)]
  | (k2, w) :: rest => if k2 = k then (k, v) :: rest else (k2, w) :: dset rest k v

/-- Dict deletion `del d[k]`. -/
def ddel {α : Type} (d : List (String × α)) (k : String) : List (String × α) :=
  match d with
  | [] => []
  | (k2, v) :: rest => if k2 = k then ddel rest k else (k2, v) :: ddel rest k

/-- `defaultdict(list)` read: the stored list, or `[]` when the key is absent. -/
def dget {α : Type} (d : List (String × List α)) (k : String) : List α :=
  (lookupKV d k).getD []

/-- The side effect of reading `d[k]` on a `defaultdict(list)`: inserts an
empty list under `k` when absent. -/
def ensureKey {α : Type} (d : List (String × List α)) (k : String) :
    List (String × List α) :=
  if (lookupKV d k).isSome then d else d ++ [(k, [])]

/-- `event.get(k, None)` (`aggregation.py` line 146/151): the stored value,
or Python `None` when the field is absent. -/
def pyGet (e : Event) (k : String) : Value :=
  (lookupKV e k).getD Value.vNull

/-- `AggregationState` (`aggregation.py` lines 18-25): per-rule event history
and the co-indexed per-rule timestamp history, both `defaultdict(list)`. -/
structure AggregationState where
  events : List (String × List Event)
  timestamps : List (String × List Int)
deriving DecidableEq, Repr

/-- The freshly constructed (or `reset_aggregation_state`) store. -/
def initialState : AggregationState := { events := [], timestamps := [] }

/-- Timestamp extraction of `add_event` (`aggregation.py` lines 31-44) for the
default `timestamp_field='UtcTime'`: a truthy `datetime` value is used as is, a
truthy `int` is passed through unchanged (`dt = ts` is taken for any non-`str`),
and a missing/falsy/unparseable value is replaced by the current time `now`.
String timestamps are modelled as never parsing (the `strptime` format parser
is not modelled; no claim depends on parsed string timestamps). -/
def resolve_timestamp (event : Event) (now : Int) : Int :=
  match lookupKV event "UtcTime" with
  | some (Value.vTime t) => t
  | some (Value.vInt n) => if n = 0 then now else n
  | _ => now

/-- `AggregationState.add_event` (`aggregation.py` lines 27-44): append the
event to the rule's history and append exactly one timestamp. -/
def add_event (s : AggregationState) (rule_id : String) (event : Event)
    (now : Int) : AggregationState :=
  { events := dset s.events rule_id (dget s.events rule_id ++ [event]),
    timestamps :=
      dset s.timestamps rule_id
        (dget s.timestamps rule_id ++ [resolve_timestamp event now]) }

/-- `AggregationState._parse_timeframe` (`aggregation.py` lines 69-88), in
seconds.  `Except.error ()` is the `ValueError` raised by `int(timeframe[:-1])`
when the suffix is recognized but the prefix is not an integer literal. -/
def _parse_timeframe (timeframe : String) : Except Unit (Option Int) :=
  if timeframe = "" then Except.ok none
  else
    let t := trimChars timeframe.data
    match t.getLast? with
    | some 'M' =>
      match pyIntChars? t.dropLast with
      | some n => Except.ok (some (n * 30 * 86400))
      | none => Except.error ()
    | some 'd' =>
      match pyIntChars? t.dropLast with
      | some n => Except.ok (some (n * 86400))
      | none => Except.error ()
    | some 'h' =>
      match pyIntChars? t.dropLast with
      | some n => Except.ok (some (n * 3600))
      | none => Except.error ()
    | some 'm' =>
      match pyIntChars? t.dropLast with
      | some n => Except.ok (some (n * 60))
      | none => Except.error ()
    | some 's' =>
      match pyIntChars? t.dropLast with
      | some n => Except.ok (some n)
      | none => Except.error ()
    | _ => Except.ok none

/-- `AggregationState.cleanup_old_events` (`aggregation.py` lines 46-67):
no-op when the timeframe is falsy or the rule has no timestamp history;
otherwise parse the timeframe (which may raise) and keep exactly the
`(event, timestamp)` pairs with `timestamp ≥ now - time_limit`. -/
def cleanup_old_events (s : AggregationState) (rule_id : String)
    (timeframe : String) (now : Int) : Except Unit AggregationState :=
  if timeframe = "" ∨ (lookupKV s.timestamps rule_id).isNone then Except.ok s
  else
    match _parse_timeframe timeframe with
    | Except.error e => Except.error e
    | Except.ok none => Except.ok s
    | Except.ok (some time_limit) =>
      let cutoff_time := now - time_limit
      let kept :=
        ((dget s.events rule_id).zip (dget s.timestamps rule_id)).filter
          (fun p => decide (cutoff_time ≤ p.2))
      Except.ok
        { events := dset s.events rule_id (kept.map Prod.fst),
          timestamps := dset s.timestamps rule_id (kept.map Prod.snd) }

/-- `AggregationState.get_events` (`aggregation.py` lines 90-92): returns the
rule's history; as a `defaultdict` read it also inserts an empty history for a
previously unseen rule. -/
def get_events (s : AggregationState) (rule_id : String) :
    List Event × AggregationState :=
  (dget s.events rule_id, { s with events := ensureKey s.events rule_id })

/-- `AggregationState.clear_rule` (`aggregation.py` lines 94-99). -/
def clear_rule (s : AggregationState) (rule_id : String) : AggregationState :=
  { events := ddel s.events rule_id, timestamps := ddel s.timestamps rule_id }

/-- Field-value extraction loop of `_compute_aggregation` (`aggregation.py`
lines 179-186): keep, in order, the numerically coercible values of `f`;
events whose field is absent, `None`, or not coercible are dropped. -/
def extractValues (f : String) (events : List Event) : List ℚ :=
  events.filterMap (fun e => (lookupKV e f).bind Value.toFloat?)

/-- Left fold `sum(values)`. -/
def sumList (l : List ℚ) : ℚ := l.foldl (fun a b => a + b) 0

/-- `AggregationEvaluator._compute_aggregation` (`aggregation.py` lines
169-200).  `count` ignores the field; a falsy field (Python `None` or `""`)
for any other function gives `0.0`; with no coercible values the result is
`0.0`; otherwise sum/min/max/avg over the extracted values. -/
def _compute_aggregation (func_name : String) (field : Option String)
    (events : List Event) : ℚ :=
  if func_name = "count" then (events.length : ℚ)
  else
    match field with
    | none => 0
    | some f =>
      if f = "" then 0
      else
        match extractValues f events with
        | [] => 0
        | v :: vs =>
          if func_name = "sum" then sumList (v :: vs)
          else if func_name = "min" then vs.foldl min v
          else if func_name = "max" then vs.foldl max v
          else if func_name = "avg" then
            sumList (v :: vs) / (((v :: vs).length : ℚ))
          else 0

/-- `AggregationEvaluator._compare` (`aggregation.py` lines 202-210). -/
def _compare (value : ℚ) (op : String) (threshold : Int) : Bool :=
  if op = ">" then decide ((threshold : ℚ) < value)
  else if op = "<" then decide (value < (threshold : ℚ))
  else if op = "=" then decide (value = (threshold : ℚ))
  else false

/-- `defaultdict(list)` grouping of `evaluate` (`aggregation.py` lines
144-147): partition events by the Python value of the group-by field (missing
fields group under the `None` key), keys compared with Python `==` and kept in
first-occurrence order. -/
def addToGroups (groups : List (Value × List Event)) (k : Value) (e : Event) :
    List (Value × List Event) :=
  if groups.any (fun p => Value.pyEq p.1 k) then
    groups.map (fun p => if Value.pyEq p.1 k then (p.1, p.2 ++ [e]) else p)
  else groups ++ [(k, [e])]

/-- The full grouping pass over the retained events. -/
def pyGroupBy (events : List Event) (gb : String) : List (Value × List Event) :=
  events.foldl (fun gs e => addToGroups gs (pyGet e gb) e) []

/-- `current_group in groups` followed by `groups[current_group]`
(`aggregation.py` lines 152-153). -/
def findGroup (groups : List (Value × List Event)) (k : Value) :
    Option (List Event) :=
  (groups.find? (fun p => Value.pyEq p.1 k)).map Prod.snd

/-- The `if timeframe:` guard of `evaluate` (`aggregation.py` lines 134-135):
cleanup runs only for a truthy timeframe. -/
def cleanupStep (s : AggregationState) (rule_id : String)
    (timeframe : Option String) (now : Int) : Except Unit AggregationState :=
  match timeframe with
  | some tf => if tf = "" then Except.ok s else cleanup_old_events s rule_id tf now
  | none => Except.ok s

/-- `AggregationEvaluator.evaluate` (`aggregation.py` lines 108-167).
Mirrors the Python truthiness tests: `if group_by:` is false for `None` and
`""`; `if current_event:` is false for `None` and the empty dict. -/
def evaluate (s : AggregationState) (rule_id : String) (func_name : String)
    (field : Option String) (group_by : Option String) (comparison_op : String)
    (threshold : Int) (timeframe : Option String) (current_event : Option Event)
    (now : Int) : Except Unit (Bool × AggregationState) :=
  match cleanupStep s rule_id timeframe now with
  | Except.error e => Except.error e
  | Except.ok s1 =>
    let events := dget s1.events rule_id
    let s2 : AggregationState := { s1 with events := ensureKey s1.events rule_id }
    if events = [] then Except.ok (false, s2)
    else
      match group_by with
      | some gb =>
        if gb = "" then
          Except.ok
            (_compare (_compute_aggregation func_name field events) comparison_op
              threshold, s2)
        else
          let groups := pyGroupBy events gb
          match current_event with
          | some ce =>
            if ce = ([] : Event) then
              Except.ok
                (groups.any (fun p =>
                  _compare (_compute_aggregation func_name field p.2)
                    comparison_op threshold), s2)
            else
              match findGroup groups (pyGet ce gb) with
              | some group_events =>
                Except.ok
                  (_compare (_compute_aggregation func_name field group_events)
                    comparison_op threshold, s2)
              | none => Except.ok (false, s2)
          | none =>
            Except.ok
              (groups.any (fun p =>
                _compare (_compute_aggregation func_name field p.2)
                  comparison_op threshold), s2)
      | none =>
        Except.ok
          (_compare (_compute_aggregation func_name field events) comparison_op
            threshold, s2)

/-- The aggregation parameters extracted by
`FactoryTransformer.aggregation_expression` (`parser.py` lines 334-368). -/
structure AggSpec where
  func : String
  field : Option String
  group_by : Option String
  op : String
  threshold : Int
deriving DecidableEq, Repr

/-- The parts of a rule object that the compiled predicates read:
`signature.id` and `signature.get_timeframe()`. -/
structure Signature where
  id : String
  timeframe : Option String
deriving DecidableEq, Repr

/-- The external collaborators the compiled predicates delegate to:
`match_search_id` (for `search_id` leaves) and `analyze_x_of` (for `x_of`
leaves).  Both ignore the aggregation store. -/
structure Collaborators where
  match_search_id : Signature → Event → String → Bool
  analyze_x_of : Signature → Event → Option Int → Option String → Bool

mutual
/-- Compiled condition shapes produced by `FactoryTransformer`
(`parser.py` lines 179-404).  `and_rule`/`or_rule` keep the transformer's
n-ary argument lists (single-element lists are collapsed by the transformer,
but the collapsed form evaluates identically).  Because the parser is built
with `maybe_placeholders=True`, `pipe_rule` always receives two arguments
`[base, aggregation-or-None]` (the `len(args) == 1` branch of `pipe_rule` is
unreachable: `not_rule`'s 2-way unpacking of `[not] atom` shows the
placeholder `None` is inserted for every unmatched `[...]` item), so a
condition with no `|` clause compiles to `pipe_plain base`. -/
inductive Cond where
  | search_id : String → Cond
  | not_rule : Cond → Cond
  | and_rule : CondList → Cond
  | or_rule : CondList → Cond
  | x_of : Option Int → Option String → Cond
  | pipe_plain : Cond → Cond
  | pipe_agg : Cond → Agg → Cond

/-- Argument lists of `and_rule`/`or_rule` (a mutual clone of `List Cond`). -/
inductive CondList where
  | nil : CondList
  | cons : Cond → CondList → CondList

/-- The `aggregation_expression` alternatives: a regular aggregation spec, or
the `near` stub with or without an inner condition (`parser.py` 392-404). -/
inductive Agg where
  | spec : AggSpec → Agg
  | near_none : Agg
  | near_some : Cond → Agg
end

mutual
/-- Evaluation of a compiled predicate `(signature, event, aggregation_state)`.
Each transformer closure is one arm: `search_id`/`x_of` delegate to the
collaborators and ignore the store; `not`/`and`/`or` thread the (mutable)
store through sub-predicates; `pipe_plain`/`pipe_agg` are
`_pipe_with_aggregation` (`parser.py` lines 257-280): evaluate the base, on
false return false, on true `add_event` and then evaluate the aggregation
(returning `True` when the aggregation placeholder is `None`). -/
def evalCond (col : Collaborators) (now : Int) (c : Cond) (sig : Signature)
    (event : Event) (st : AggregationState) :
    Except Unit (Bool × AggregationState) :=
  match c with
  | Cond.search_id name => Except.ok (col.match_search_id sig event name, st)
  | Cond.not_rule inner =>
    match evalCond col now inner sig event st with
    | Except.error e => Except.error e
    | Except.ok (b, st1) => Except.ok (!b, st1)
  | Cond.and_rule cs => evalAnd col now cs sig event st
  | Cond.or_rule cs => evalOr col now cs sig event st
  | Cond.x_of count selector =>
    Except.ok (col.analyze_x_of sig event count selector, st)
  | Cond.pipe_plain base =>
    match evalCond col now base sig event st with
    | Except.error e => Except.error e
    | Except.ok (false, st1) => Except.ok (false, st1)
    | Except.ok (true, st1) => Except.ok (true, add_event st1 sig.id event now)
  | Cond.pipe_agg base a =>
    match evalCond col now base sig event st with
    | Except.error e => Except.error e
    | Except.ok (false, st1) => Except.ok (false, st1)
    | Except.ok (true, st1) => evalAgg col now a sig event (add_event st1 sig.id event now)

/-- `_and_operation` (`parser.py` lines 222-226): left-to-right, stop at the
first false component. -/
def evalAnd (col : Collaborators) (now : Int) (cs : CondList) (sig : Signature)
    (event : Event) (st : AggregationState) :
    Except Unit (Bool × AggregationState) :=
  match cs with
  | CondList.nil => Except.ok (true, st)
  | CondList.cons c rest =>
    match evalCond col now c sig event st with
    | Except.error e => Except.error e
    | Except.ok (false, st1) => Except.ok (false, st1)
    | Except.ok (true, st1) => evalAnd col now rest sig event st1

/-- `_or_operation` (`parser.py` lines 238-242): left-to-right, stop at the
first true component. -/
def evalOr (col : Collaborators) (now : Int) (cs : CondList) (sig : Signature)
    (event : Event) (st : AggregationState) :
    Except Unit (Bool × AggregationState) :=
  match cs with
  | CondList.nil => Except.ok (false, st)
  | CondList.cons c rest =>
    match evalCond col now c sig event st with
    | Except.error e => Except.error e
    | Except.ok (true, st1) => Except.ok (true, st1)
    | Except.ok (false, st1) => evalOr col now rest sig event st1

/-- `_aggregation_check` (`parser.py` lines 370-390) and
`_near_aggregation_check` (`parser.py` lines 397-404): a regular aggregation
calls the evaluator with the rule's own timeframe and the current event; the
`near` stub forwards its inner condition or returns true. -/
def evalAgg (col : Collaborators) (now : Int) (a : Agg) (sig : Signature)
    (event : Event) (st : AggregationState) :
    Except Unit (Bool × AggregationState) :=
  match a with
  | Agg.spec sp =>
    evaluate st sig.id sp.func sp.field sp.group_by sp.op sp.threshold
      sig.timeframe (some event) now
  | Agg.near_none => Except.ok (true, st)
  | Agg.near_some c => evalCond col now c sig event st
end

mutual
/-- A condition with no aggregation clause anywhere (the `pipe_plain`
placeholder wrapper is allowed, an attached `aggregation_expression` is not). -/
def noAggC : Cond → Bool
  | Cond.search_id _ => true
  | Cond.not_rule c => noAggC c
  | Cond.and_rule cs => noAggL cs
  | Cond.or_rule cs => noAggL cs
  | Cond.x_of _ _ => true
  | Cond.pipe_plain base => noAggC base
  | Cond.pipe_agg _ _ => false

/-- `noAggC` over an argument list. -/
def noAggL : CondList → Bool
  | CondList.nil => true
  | CondList.cons c rest => noAggC c && noAggL rest
end

mutual
/-- A condition containing no `pipe_rule` node at all: compositions of
search references, `not`, `and`, `or` and `x_of` only. -/
def pipeFreeC : Cond → Bool
  | Cond.search_id _ => true
  | Cond.not_rule c => pipeFreeC c
  | Cond.and_rule cs => pipeFreeL cs
  | Cond.or_rule cs => pipeFreeL cs
  | Cond.x_of _ _ => true
  | Cond.pipe_plain _ => false
  | Cond.pipe_agg _ _ => false

/-- `pipeFreeC` over an argument list. -/
def pipeFreeL : CondList → Bool
  | CondList.nil => true
  | CondList.cons c rest => pipeFreeC c && pipeFreeL rest
end

mutual
/-- Reference boolean semantics of an aggregation-free condition: the result
the compiled closures compute, as a pure function of `(signature, event)`. -/
def pureEval (col : Collaborators) (c : Cond) (sig : Signature) (ev : Event) :
    Bool :=
  match c with
  | Cond.search_id name => col.match_search_id sig ev name
  | Cond.not_rule inner => !(pureEval col inner sig ev)
  | Cond.and_rule cs => pureEvalAnd col cs sig ev
  | Cond.or_rule cs => pureEvalOr col cs sig ev
  | Cond.x_of count selector => col.analyze_x_of sig ev count selector
  | Cond.pipe_plain base => pureEval col base sig ev
  | Cond.pipe_agg base _ => pureEval col base sig ev

/-- Short-circuit conjunction of `pureEval` over a list. -/
def pureEvalAnd (col : Collaborators) (cs : CondList) (sig : Signature)
    (ev : Event) : Bool :=
  match cs with
  | CondList.nil => true
  | CondList.cons c rest =>
    if pureEval col c sig ev then pureEvalAnd col rest sig ev else false

/-- Short-circuit disjunction of `pureEval` over a list. -/
def pureEvalOr (col : Collaborators) (cs : CondList) (sig : Signature)
    (ev : Event) : Bool :=
  match cs with
  | CondList.nil => false
  | CondList.cons c rest =>
    if pureEval col c sig ev then true else pureEvalOr col rest sig ev
end

/-! ## Derived definitions and concrete fixtures used by the theorems -/

/-- The `(event, timestamp)` pairs retained by an expiry pass. -/
def keptPairs (s : AggregationState) (rid : String) (now dur : Int) :
    List (Event × Int) :=
  ((dget s.events rid).zip (dget s.timestamps rid)).filter
    (fun p => decide (now - dur ≤ p.2))

/-- The store written back by a successful expiry pass. -/
def cleanupApply (s : AggregationState) (rid : String) (now dur : Int) :
    AggregationState :=
  { events := dset s.events rid ((keptPairs s rid now dur).map Prod.fst),
    timestamps := dset s.timestamps rid ((keptPairs s rid now dur).map Prod.snd) }

/-- The co-indexing invariant of claim C5: for every rule identifier the
event history and the timestamp history have the same length. -/
def goodState (s : AggregationState) : Prop :=
  ∀ rid, (dget s.events rid).length = (dget s.timestamps rid).length

/-- The boolean the evaluator computes from the post-expiry retained events
(the body of `evaluate` after the cleanup and the emptiness guard). -/
def evalCore (events : List Event) (func : String) (field : Option String)
    (gby : Option String) (op : String) (thr : Int) (ce : Option Event) :
    Bool :=
  if events = [] then false
  else
    match gby with
    | some gb =>
      if gb = "" then _compare (_compute_aggregation func field events) op thr
      else
        match ce with
        | some c =>
          if c = ([] : Event) then
            (pyGroupBy events gb).any (fun p =>
              _compare (_compute_aggregation func field p.2) op thr)
          else
            match findGroup (pyGroupBy events gb) (pyGet c gb) with
            | some g => _compare (_compute_aggregation func field g) op thr
            | none => false
        | none =>
          (pyGroupBy events gb).any (fun p =>
            _compare (_compute_aggregation func field p.2) op thr)
    | none => _compare (_compute_aggregation func field events) op thr

def col0 : Collaborators :=
  { match_search_id := fun _ _ _ => true, analyze_x_of := fun _ _ _ _ => true }

def sig0 : Signature := { id := "r1", timeframe := none }

def ev0 : Event := [("EventID", Value.vStr "1234")]

def stR : AggregationState :=
  { events := [("r", [ev0])], timestamps := [("r", [5])] }

def evA : Event := [("a", Value.vInt 1)]

def evB : Event := [("b", Value.vInt 2)]

def stW7 : AggregationState :=
  { events := [("r", [evA, evB])], timestamps := [("r", [1, 5])] }

def evG1 : Event := [("g", Value.vInt 1), ("v", Value.vInt 10)]

def evG2 : Event := [("g", Value.vInt 2), ("v", Value.vInt 20)]

def stG4 : AggregationState :=
  { events := [("rG", [evG1, evG2])], timestamps := [("rG", [0, 0])] }

def ceG : Event := [("g", Value.vInt 1)]

def evH : Event := [("g", Value.vInt 1)]

def stC4 : AggregationState :=
  { events := [("rc4", [evH])], timestamps := [("rc4", [0])] }

def evK : Event := [("h", Value.vInt 7)]

def stC10 : AggregationState :=
  { events := [("rc10", [evK])], timestamps := [("rc10", [0])] }

def ceK : Event := [("h", Value.vInt 99)]

def evM1 : Event := [("x", Value.vInt 4)]

def evM2 : Event := [("y", Value.vInt 9)]

def evM3 : Event := [("x", Value.vStr "bad")]

def aggLow : Agg :=
  Agg.spec { func := "count", field := none, group_by := none, op := ">",
             threshold := 10 }

def aggAny : Agg :=
  Agg.spec { func := "count", field := none, group_by := none, op := ">",
             threshold := 0 }

/-! ## Association-list lemmas -/

theorem lookupKV_dset_self {α : Type} (d : List (String × α)) (k : String)
    (v : α) : lookupKV (dset d k v) k = some v := by
  induction d with
  | nil => simp [dset, lookupKV]
  | cons p rest ih =>
    obtain ⟨k2, w⟩ := p
    by_cases h : k2 = k <;> simp [dset, lookupKV, h, ih]

theorem lookupKV_dset_ne {α : Type} (d : List (String × α)) (k k2 : String)
    (v : α) (h : k2 ≠ k) : lookupKV (dset d k v) k2 = lookupKV d k2 := by
  have h1 : ¬(k = k2) := fun hh => h hh.symm
  induction d with
  | nil => simp [dset, lookupKV, h1]
  | cons p rest ih =>
    obtain ⟨k3, w⟩ := p
    by_cases h3 : k3 = k
    · subst h3
      simp [dset, lookupKV, h1]
    · by_cases h2 : k3 = k2 <;> simp [dset, lookupKV, h3, h2, ih, h]

theorem dget_dset_self {α : Type} (d : List (String × List α)) (k : String)
    (v : List α) : dget (dset d k v) k = v := by
  simp [dget, lookupKV_dset_self]

theorem dget_dset_ne {α : Type} (d : List (String × List α)) (k k2 : String)
    (v : List α) (h : k2 ≠ k) : dget (dset d k v) k2 = dget d k2 := by
  simp [dget, lookupKV_dset_ne d k k2 v h]

theorem dset_dset_self {α : Type} (d : List (String × α)) (k : String)
    (v w : α) : dset (dset d k v) k w = dset d k w := by
  induction d with
  | nil => simp [dset]
  | cons p rest ih =>
    obtain ⟨k2, u⟩ := p
    by_cases h : k2 = k <;> simp [dset, h, ih]

theorem dget_append_nilkey {α : Type} (d : List (String × List α))
    (k k2 : String) : dget (d ++ [(k, ([] : List α))]) k2 = dget d k2 := by
  induction d with
  | nil => by_cases h2 : k = k2 <;> simp [dget, lookupKV, h2]
  | cons p rest ih =>
    obtain ⟨k3, w⟩ := p
    by_cases h3 : k3 = k2
    · simp [dget, lookupKV, h3]
    · simpa [dget, lookupKV, h3] using ih

theorem dget_ensureKey {α : Type} (d : List (String × List α)) (k k2 : String) :
    dget (ensureKey d k) k2 = dget d k2 := by
  unfold ensureKey
  by_cases h : (lookupKV d k).isSome
  · simp [h]
  · simp [h, dget_append_nilkey]

theorem lookupKV_ddel_self {α : Type} (d : List (String × α)) (k : String) :
    lookupKV (ddel d k) k = none := by
  induction d with
  | nil => simp [ddel, lookupKV]
  | cons p rest ih =>
    obtain ⟨k2, w⟩ := p
    by_cases h : k2 = k <;> simp [ddel, lookupKV, h, ih]

theorem lookupKV_ddel_ne {α : Type} (d : List (String × α)) (k k2 : String)
    (h : k2 ≠ k) : lookupKV (ddel d k) k2 = lookupKV d k2 := by
  induction d with
  | nil => simp [ddel, lookupKV]
  | cons p rest ih =>
    obtain ⟨k3, w⟩ := p
    by_cases h3 : k3 = k
    · subst h3
      have h1 : ¬(k3 = k2) := fun hh => h hh.symm
      simp [ddel, lookupKV, h1, ih]
    · by_cases h2 : k3 = k2 <;> simp [ddel, lookupKV, h3, h2, ih, h]

theorem zip_map_fst_snd {α β : Type} (l : List (α × β)) :
    (l.map Prod.fst).zip (l.map Prod.snd) = l := by
  induction l with
  | nil => rfl
  | cons p rest ih => simp [ih]

/-! ## Branch characterization of `cleanup_old_events` -/

theorem cleanup_empty_tf (s : AggregationState) (rid : String) (now : Int) :
    cleanup_old_events s rid "" now = Except.ok s := by
  simp [cleanup_old_events]

theorem cleanup_no_history (s : AggregationState) (rid tf : String) (now : Int)
    (h : lookupKV s.timestamps rid = none) :
    cleanup_old_events s rid tf now = Except.ok s := by
  simp [cleanup_old_events, h]

theorem cleanup_parse_none (s : AggregationState) (rid tf : String) (now : Int)
    (hp : _parse_timeframe tf = Except.ok none) :
    cleanup_old_events s rid tf now = Except.ok s := by
  by_cases h1 : tf = ""
  · subst h1; exact cleanup_empty_tf s rid now
  · by_cases h2 : (lookupKV s.timestamps rid).isNone
    · simp [cleanup_old_events, h2]
    · simp [cleanup_old_events, h1, h2, hp]

theorem cleanup_parse_err (s : AggregationState) (rid tf : String) (now : Int)
    (h1 : tf ≠ "") (h2 : (lookupKV s.timestamps rid).isSome)
    (hp : _parse_timeframe tf = Except.error ()) :
    cleanup_old_events s rid tf now = Except.error () := by
  obtain ⟨ts, hv⟩ := Option.isSome_iff_exists.mp h2
  simp [cleanup_old_events, h1, hv, hp]

theorem cleanup_parse_some (s : AggregationState) (rid tf : String)
    (now dur : Int) (h1 : tf ≠ "") (h2 : (lookupKV s.timestamps rid).isSome)
    (hp : _parse_timeframe tf = Except.ok (some dur)) :
    cleanup_old_events s rid tf now = Except.ok (cleanupApply s rid now dur) := by
  obtain ⟨ts, hv⟩ := Option.isSome_iff_exists.mp h2
  simp [cleanup_old_events, cleanupApply, keptPairs, h1, hv, hp]

theorem cleanup_cases (s : AggregationState) (rid tf : String) (now : Int)
    (s2 : AggregationState) (h : cleanup_old_events s rid tf now = Except.ok s2) :
    s2 = s ∨ ∃ dur, _parse_timeframe tf = Except.ok (some dur)
      ∧ (lookupKV s.timestamps rid).isSome ∧ s2 = cleanupApply s rid now dur := by
  by_cases h1 : tf = ""
  · subst h1
    rw [cleanup_empty_tf] at h
    exact Or.inl (Except.ok.inj h).symm
  · cases h2 : lookupKV s.timestamps rid with
    | none =>
      rw [cleanup_no_history s rid tf now h2] at h
      exact Or.inl (Except.ok.inj h).symm
    | some ts =>
      have h2s : (lookupKV s.timestamps rid).isSome := by simp [h2]
      cases hp : _parse_timeframe tf with
      | error e =>
        cases e
        rw [cleanup_parse_err s rid tf now h1 h2s hp] at h
        exact absurd h (by simp)
      | ok o =>
        cases o with
        | none =>
          rw [cleanup_parse_none s rid tf now hp] at h
          exact Or.inl (Except.ok.inj h).symm
        | some dur =>
          rw [cleanup_parse_some s rid tf now dur h1 h2s hp] at h
          exact Or.inr ⟨dur, rfl, by simp, (Except.ok.inj h).symm⟩

theorem filter_idem {α : Type} (p : α → Bool) (l : List α) :
    (l.filter p).filter p = l.filter p := by
  induction l with
  | nil => rfl
  | cons a rest ih => by_cases h : p a <;> simp [List.filter, h, ih]

/-! ## Store-level claims -/

/-- Claim C3 (amended): `cleanup_old_events` is a silent no-op when the
timeframe is empty, when the timeframe's suffix is unrecognized (the parse
yields "no expiry"), or when the rule has no recorded timestamp history; but
when the rule has history and the timeframe ends in a recognized suffix
(M/d/h/m/s) whose prefix does not parse as an integer, the call raises a
`ValueError` instead of being a no-op. -/
theorem spec_C3 (s : AggregationState) (rid tf : String) (now : Int) :
    (tf = "" → cleanup_old_events s rid tf now = Except.ok s)
    ∧ (lookupKV s.timestamps rid = none →
        cleanup_old_events s rid tf now = Except.ok s)
    ∧ (_parse_timeframe tf = Except.ok none →
        cleanup_old_events s rid tf now = Except.ok s)
    ∧ (_parse_timeframe tf = Except.error () →
        (lookupKV s.timestamps rid).isSome →
        cleanup_old_events s rid tf now = Except.error ()) := by
  refine ⟨?_, ?_, ?_, ?_⟩
  · intro h1
    subst h1
    exact cleanup_empty_tf s rid now
  · intro h2
    exact cleanup_no_history s rid tf now h2
  · intro hp
    exact cleanup_parse_none s rid tf now hp
  · intro hp h2
    have h1 : tf ≠ "" := by
      intro hh
      rw [hh] at hp
      exact absurd hp (by decide)
    exact cleanup_parse_err s rid tf now h1 h2 hp

/-- Claim C5: the per-rule event and timestamp sequences are always the same
length and co-indexed; the invariant holds for the initial (and reset) store
and is preserved by `add_event` (which appends the event and exactly one
timestamp at the end, preserving insertion order), by every non-raising
`cleanup_old_events`, by `get_events` (which also returns exactly the stored
sequence), and by `clear_rule`. -/
theorem spec_C5 :
    goodState initialState
    ∧ (∀ s rid ev now, goodState s →
        goodState (add_event s rid ev now)
        ∧ dget (add_event s rid ev now).events rid = dget s.events rid ++ [ev]
        ∧ dget (add_event s rid ev now).timestamps rid
            = dget s.timestamps rid ++ [resolve_timestamp ev now])
    ∧ (∀ s rid tf now s2, goodState s →
        cleanup_old_events s rid tf now = Except.ok s2 → goodState s2)
    ∧ (∀ s rid, goodState s →
        (get_events s rid).1 = dget s.events rid
        ∧ goodState (get_events s rid).2)
    ∧ (∀ s rid, goodState s → goodState (clear_rule s rid)) := by
  refine ⟨fun rid => rfl, ?_, ?_, ?_, ?_⟩
  · intro s rid ev now hg
    refine ⟨?_, dget_dset_self s.events rid _, dget_dset_self s.timestamps rid _⟩
    intro rid2
    by_cases h : rid2 = rid
    · subst h
      simp [add_event, dget_dset_self, hg rid2]
    · simp [add_event, dget_dset_ne _ _ _ _ h, hg rid2]
  · intro s rid tf now s2 hg h
    rcases cleanup_cases s rid tf now s2 h with hs | ⟨dur, _, _, hs⟩
    · subst hs; exact hg
    · subst hs
      intro rid2
      by_cases h2 : rid2 = rid
      · subst h2
        simp [cleanupApply, dget_dset_self]
      · simp [cleanupApply, dget_dset_ne _ _ _ _ h2, hg rid2]
  · intro s rid hg
    refine ⟨rfl, ?_⟩
    intro rid2
    simpa [get_events, dget_ensureKey] using hg rid2
  · intro s rid hg
    intro rid2
    by_cases h : rid2 = rid
    · subst h
      simp [clear_rule, dget, lookupKV_ddel_self]
    · simpa [clear_rule, dget, lookupKV_ddel_ne _ _ _ h] using hg rid2

/-- Claim C7: with a parseable timeframe, `cleanup_old_events` succeeds and
retains exactly the `(event, timestamp)` entries whose timestamp is at least
`now - duration` (entries strictly older than the cutoff are removed), in
their original relative order. -/
theorem spec_C7 (s : AggregationState) (rid tf : String) (now dur : Int)
    (hp : _parse_timeframe tf = Except.ok (some dur)) :
    ∃ s2, cleanup_old_events s rid tf now = Except.ok s2
      ∧ (dget s2.events rid).zip (dget s2.timestamps rid)
          = ((dget s.events rid).zip (dget s.timestamps rid)).filter
              (fun p => decide (now - dur ≤ p.2)) := by
  have h1 : tf ≠ "" := by
    intro hh
    rw [hh, show _parse_timeframe "" = Except.ok none from rfl] at hp
    simp at hp
  cases h2 : lookupKV s.timestamps rid with
  | none =>
    refine ⟨s, cleanup_no_history s rid tf now h2, ?_⟩
    have hts : dget s.timestamps rid = [] := by simp [dget, h2]
    simp [hts]
  | some ts =>
    have h2s : (lookupKV s.timestamps rid).isSome := by simp [h2]
    refine ⟨cleanupApply s rid now dur,
      cleanup_parse_some s rid tf now dur h1 h2s hp, ?_⟩
    simp [cleanupApply, dget_dset_self, zip_map_fst_snd, keptPairs]

/-- Claim C8: `cleanup_old_events` is idempotent — a second invocation with
the same rule, timeframe and evaluation instant, with no intervening insert,
returns the already-cleaned store unchanged. -/
theorem spec_C8 (s s2 : AggregationState) (rid tf : String) (now : Int)
    (h : cleanup_old_events s rid tf now = Except.ok s2) :
    cleanup_old_events s2 rid tf now = Except.ok s2 := by
  by_cases h1 : tf = ""
  · subst h1
    rw [cleanup_empty_tf] at h
    rw [← Except.ok.inj h]
    exact cleanup_empty_tf s rid now
  · cases h2 : lookupKV s.timestamps rid with
    | none =>
      rw [cleanup_no_history s rid tf now h2] at h
      rw [← Except.ok.inj h]
      exact cleanup_no_history s rid tf now h2
    | some ts =>
      have h2s : (lookupKV s.timestamps rid).isSome := by simp [h2]
      cases hp : _parse_timeframe tf with
      | error e =>
        cases e
        rw [cleanup_parse_err s rid tf now h1 h2s hp] at h
        exact absurd h (by simp)
      | ok o =>
        cases o with
        | none =>
          rw [cleanup_parse_none s rid tf now hp] at h
          rw [← Except.ok.inj h]
          exact cleanup_parse_none s rid tf now hp
        | some dur =>
          rw [cleanup_parse_some s rid tf now dur h1 h2s hp] at h
          rw [← Except.ok.inj h]
          have h2b : (lookupKV (cleanupApply s rid now dur).timestamps rid).isSome := by
            simp [cleanupApply, lookupKV_dset_self]
          rw [cleanup_parse_some (cleanupApply s rid now dur) rid tf now dur h1 h2b hp]
          have hk : keptPairs (cleanupApply s rid now dur) rid now dur
              = keptPairs s rid now dur := by
            simp [keptPairs, cleanupApply, dget_dset_self, zip_map_fst_snd,
              filter_idem]
          have happ : cleanupApply (cleanupApply s rid now dur) rid now dur
              = cleanupApply s rid now dur := by
            have hshape : cleanupApply (cleanupApply s rid now dur) rid now dur
                = { events := dset (cleanupApply s rid now dur).events rid
                      ((keptPairs (cleanupApply s rid now dur) rid now dur).map
                        Prod.fst),
                    timestamps := dset (cleanupApply s rid now dur).timestamps rid
                      ((keptPairs (cleanupApply s rid now dur) rid now dur).map
                        Prod.snd) } := rfl
            rw [hshape, hk]
            simp [cleanupApply, dset_dset_self]
          rw [happ]

/-! ## Aggregate computation claims -/

theorem extractValues_filter (f : String) (events : List Event) :
    extractValues f
        (events.filter (fun e => ((lookupKV e f).bind Value.toFloat?).isSome))
      = extractValues f events := by
  induction events with
  | nil => rfl
  | cons e rest ih =>
    cases hg : (lookupKV e f).bind Value.toFloat? with
    | none =>
      simp only [extractValues, List.filter_cons, List.filterMap_cons, hg] at ih ⊢
      simpa [hg] using ih
    | some q =>
      simp only [extractValues, List.filter_cons, List.filterMap_cons, hg] at ih ⊢
      simpa [hg] using ih

/-- Claim C6: `count` is the cardinality of the selected events whatever the
field; a non-count function with no field gives the degenerate aggregate `0`;
with no coercible values the aggregate is `0`; and for sum/min/max/avg,
events whose field is absent or not numerically coercible are silently
discarded — removing them from the input does not change the aggregate. -/
theorem spec_C6 :
    (∀ (field : Option String) (events : List Event),
      _compute_aggregation "count" field events = ((events.length : ℚ)))
    ∧ (∀ func events, func ≠ "count" →
        _compute_aggregation func none events = 0)
    ∧ (∀ func f events, func ≠ "count" → extractValues f events = [] →
        _compute_aggregation func (some f) events = 0)
    ∧ (∀ func f events,
        (func = "sum" ∨ func = "min" ∨ func = "max" ∨ func = "avg") →
        _compute_aggregation func (some f) events
          = _compute_aggregation func (some f)
              (events.filter
                (fun e => ((lookupKV e f).bind Value.toFloat?).isSome))) := by
  refine ⟨?_, ?_, ?_, ?_⟩
  · intro field events
    simp [_compute_aggregation]
  · intro func events h
    simp [_compute_aggregation, h]
  · intro func f events h he
    by_cases hf : f = "" <;> simp [_compute_aggregation, h, he, hf]
  · intro func f events hfunc
    have hc : func ≠ "count" := by
      rcases hfunc with h | h | h | h <;> subst h <;> decide
    have hx := extractValues_filter f events
    simp only [_compute_aggregation, hx, hc, if_false]

/-! ## Evaluator claims -/

theorem evaluate_eq (s : AggregationState) (rid func : String)
    (field gby : Option String) (op : String) (thr : Int) (tf : Option String)
    (ce : Option Event) (now : Int) :
    evaluate s rid func field gby op thr tf ce now
      = match cleanupStep s rid tf now with
        | Except.error e => Except.error e
        | Except.ok s1 =>
          Except.ok (evalCore (dget s1.events rid) func field gby op thr ce,
            { s1 with events := ensureKey s1.events rid }) := by
  cases hc : cleanupStep s rid tf now with
  | error e => simp [evaluate, hc]
  | ok s1 =>
    by_cases he : dget s1.events rid = []
    · simp [evaluate, hc, evalCore, he]
    · cases gby with
      | none => simp [evaluate, hc, evalCore, he]
      | some gb =>
        by_cases hgb : gb = ""
        · simp [evaluate, hc, evalCore, he, hgb]
        · cases ce with
          | none => simp [evaluate, hc, evalCore, he, hgb]
          | some c =>
            by_cases hce : c = ([] : Event)
            · simp [evaluate, hc, evalCore, he, hgb, hce]
            · cases hf : findGroup (pyGroupBy (dget s1.events rid) gb) (pyGet c gb) with
              | none => simp [evaluate, hc, evalCore, he, hgb, hce, hf]
              | some g => simp [evaluate, hc, evalCore, he, hgb, hce, hf]

/-- Claim C2: whenever the retained history for the rule is empty after the
expiry pass, `evaluate` returns `false` — for every function, operator and
threshold, including comparisons a zero aggregate would satisfy. -/
theorem spec_C2 (s : AggregationState) (rid func : String)
    (field gby : Option String) (op : String) (thr : Int) (tf : Option String)
    (ce : Option Event) (now : Int) (s1 : AggregationState)
    (hc : cleanupStep s rid tf now = Except.ok s1)
    (he : dget s1.events rid = []) :
    evaluate s rid func field gby op thr tf ce now
      = Except.ok (false, { s1 with events := ensureKey s1.events rid }) := by
  rw [evaluate_eq, hc]
  simp [evalCore, he]

/-- Claim C4 (amended): for a grouped aggregation the retained events are
partitioned by the Python value of the group-by field (missing fields under
the distinguished `None` key).  With a *non-empty* triggering event only the
partition matching the triggering event's grouping key is compared (absent
partition means `false`); with no triggering event — or with an empty one,
which the code's truthiness test treats as absent — the evaluator returns
true iff at least one partition satisfies the comparison. -/
theorem spec_C4 (s : AggregationState) (rid func : String)
    (field : Option String) (gb op : String) (thr : Int) (tf : Option String)
    (ce : Option Event) (now : Int) (b : Bool) (s2 : AggregationState)
    (h : evaluate s rid func field (some gb) op thr tf ce now
      = Except.ok (b, s2)) (hgb : gb ≠ "") :
    (∀ e, ce = some e → e ≠ ([] : Event) →
      b = (match findGroup (pyGroupBy (dget s2.events rid) gb) (pyGet e gb) with
           | some part => _compare (_compute_aggregation func field part) op thr
           | none => false))
    ∧ ((ce = none ∨ ce = some ([] : Event)) →
      b = (pyGroupBy (dget s2.events rid) gb).any
            (fun p => _compare (_compute_aggregation func field p.2) op thr)) := by
  rw [evaluate_eq] at h
  cases hc : cleanupStep s rid tf now with
  | error e =>
    rw [hc] at h
    exact absurd h (by simp)
  | ok s1 =>
    rw [hc] at h
    have h2 := Except.ok.inj h
    have hb : b = evalCore (dget s1.events rid) func field (some gb) op thr ce :=
      (congrArg Prod.fst h2).symm
    have hs : ({ s1 with events := ensureKey s1.events rid } : AggregationState)
        = s2 := congrArg Prod.snd h2
    have hdg : dget s2.events rid = dget s1.events rid := by
      rw [← hs]
      exact dget_ensureKey s1.events rid rid
    by_cases he : dget s1.events rid = []
    · refine ⟨?_, ?_⟩
      · intro e hce hne
        simp [hb, evalCore, he, hdg, pyGroupBy, findGroup]
      · intro hor
        simp [hb, evalCore, he, hdg, pyGroupBy]
    · refine ⟨?_, ?_⟩
      · intro e hce hne
        subst hce
        simp [hb, evalCore, he, hgb, hne, hdg]
      · intro hor
        rcases hor with hor | hor <;> subst hor <;>
          simp [hb, evalCore, he, hgb, hdg]

/-- Claim C10 (amended): for a grouped aggregation evaluated with a
*non-empty* triggering event whose grouping key matches no retained
partition, the evaluator returns false, whatever the function, operator and
threshold — the aggregate-vs-threshold comparison is never consulted. -/
theorem spec_C10 (s : AggregationState) (rid func : String)
    (field : Option String) (gb op : String) (thr : Int) (tf : Option String)
    (e : Event) (now : Int) (b : Bool) (s2 : AggregationState)
    (h : evaluate s rid func field (some gb) op thr tf (some e) now
      = Except.ok (b, s2)) (hgb : gb ≠ "") (hne : e ≠ ([] : Event))
    (hf : findGroup (pyGroupBy (dget s2.events rid) gb) (pyGet e gb) = none) :
    b = false := by
  rw [evaluate_eq] at h
  cases hc : cleanupStep s rid tf now with
  | error e2 =>
    rw [hc] at h
    exact absurd h (by simp)
  | ok s1 =>
    rw [hc] at h
    have h2 := Except.ok.inj h
    have hb : b = evalCore (dget s1.events rid) func field (some gb) op thr (some e) :=
      (congrArg Prod.fst h2).symm
    have hs : ({ s1 with events := ensureKey s1.events rid } : AggregationState)
        = s2 := congrArg Prod.snd h2
    have hdg : dget s2.events rid = dget s1.events rid := by
      rw [← hs]
      exact dget_ensureKey s1.events rid rid
    rw [hdg] at hf
    by_cases he : dget s1.events rid = []
    · simp [hb, evalCore, he]
    · simp [hb, evalCore, he, hgb, hne, hf]

/-! ## Compiled-predicate claims -/

mutual
theorem evalCond_pipeFree (col : Collaborators) (now : Int) (c : Cond)
    (sig : Signature) (ev : Event) (st : AggregationState)
    (h : pipeFreeC c = true) :
    evalCond col now c sig ev st = Except.ok (pureEval col c sig ev, st) := by
  match c with
  | Cond.search_id name => simp [evalCond, pureEval]
  | Cond.not_rule inner =>
    have hi : pipeFreeC inner = true := by simpa [pipeFreeC] using h
    have ih := evalCond_pipeFree col now inner sig ev st hi
    simp [evalCond, pureEval, ih]
  | Cond.and_rule cs =>
    have hi : pipeFreeL cs = true := by simpa [pipeFreeC] using h
    have ih := evalAnd_pipeFree col now cs sig ev st hi
    simp [evalCond, pureEval, ih]
  | Cond.or_rule cs =>
    have hi : pipeFreeL cs = true := by simpa [pipeFreeC] using h
    have ih := evalOr_pipeFree col now cs sig ev st hi
    simp [evalCond, pureEval, ih]
  | Cond.x_of count selector => simp [evalCond, pureEval]
  | Cond.pipe_plain base => simp [pipeFreeC] at h
  | Cond.pipe_agg base a => simp [pipeFreeC] at h

theorem evalAnd_pipeFree (col : Collaborators) (now : Int) (cs : CondList)
    (sig : Signature) (ev : Event) (st : AggregationState)
    (h : pipeFreeL cs = true) :
    evalAnd col now cs sig ev st = Except.ok (pureEvalAnd col cs sig ev, st) := by
  match cs with
  | CondList.nil => simp [evalAnd, pureEvalAnd]
  | CondList.cons c rest =>
    have h1 : pipeFreeC c = true := by
      have := h
      simp [pipeFreeL, Bool.and_eq_true] at this
      exact this.1
    have h2 : pipeFreeL rest = true := by
      have := h
      simp [pipeFreeL, Bool.and_eq_true] at this
      exact this.2
    have ihc := evalCond_pipeFree col now c sig ev st h1
    have ihr := evalAnd_pipeFree col now rest sig ev st h2
    cases hb : pureEval col c sig ev with
    | false =>
      rw [hb] at ihc
      simp [evalAnd, pureEvalAnd, ihc, hb]
    | true =>
      rw [hb] at ihc
      simp [evalAnd, pureEvalAnd, ihc, hb, ihr]

theorem evalOr_pipeFree (col : Collaborators) (now : Int) (cs : CondList)
    (sig : Signature) (ev : Event) (st : AggregationState)
    (h : pipeFreeL cs = true) :
    evalOr col now cs sig ev st = Except.ok (pureEvalOr col cs sig ev, st) := by
  match cs with
  | CondList.nil => simp [evalOr, pureEvalOr]
  | CondList.cons c rest =>
    have h1 : pipeFreeC c = true := by
      have := h
      simp [pipeFreeL, Bool.and_eq_true] at this
      exact this.1
    have h2 : pipeFreeL rest = true := by
      have := h
      simp [pipeFreeL, Bool.and_eq_true] at this
      exact this.2
    have ihc := evalCond_pipeFree col now c sig ev st h1
    have ihr := evalOr_pipeFree col now rest sig ev st h2
    cases hb : pureEval col c sig ev with
    | false =>
      rw [hb] at ihc
      simp [evalOr, pureEvalOr, ihc, hb, ihr]
    | true =>
      rw [hb] at ihc
      simp [evalOr, pureEvalOr, ihc, hb]
end

mutual
theorem evalCond_noAgg (col : Collaborators) (now : Int) (c : Cond)
    (sig : Signature) (ev : Event) (st : AggregationState)
    (h : noAggC c = true) :
    ∃ st2, evalCond col now c sig ev st = Except.ok (pureEval col c sig ev, st2) := by
  match c with
  | Cond.search_id name => exact ⟨st, by simp [evalCond, pureEval]⟩
  | Cond.not_rule inner =>
    have hi : noAggC inner = true := by simpa [noAggC] using h
    obtain ⟨st2, ih⟩ := evalCond_noAgg col now inner sig ev st hi
    exact ⟨st2, by simp [evalCond, pureEval, ih]⟩
  | Cond.and_rule cs =>
    have hi : noAggL cs = true := by simpa [noAggC] using h
    obtain ⟨st2, ih⟩ := evalAnd_noAgg col now cs sig ev st hi
    exact ⟨st2, by simp [evalCond, pureEval, ih]⟩
  | Cond.or_rule cs =>
    have hi : noAggL cs = true := by simpa [noAggC] using h
    obtain ⟨st2, ih⟩ := evalOr_noAgg col now cs sig ev st hi
    exact ⟨st2, by simp [evalCond, pureEval, ih]⟩
  | Cond.x_of count selector => exact ⟨st, by simp [evalCond, pureEval]⟩
  | Cond.pipe_plain base =>
    have hi : noAggC base = true := by simpa [noAggC] using h
    obtain ⟨st2, ih⟩ := evalCond_noAgg col now base sig ev st hi
    cases hb : pureEval col base sig ev with
    | false =>
      rw [hb] at ih
      exact ⟨st2, by simp [evalCond, pureEval, ih, hb]⟩
    | true =>
      rw [hb] at ih
      exact ⟨add_event st2 sig.id ev now, by simp [evalCond, pureEval, ih, hb]⟩
  | Cond.pipe_agg base a => simp [noAggC] at h

theorem evalAnd_noAgg (col : Collaborators) (now : Int) (cs : CondList)
    (sig : Signature) (ev : Event) (st : AggregationState)
    (h : noAggL cs = true) :
    ∃ st2, evalAnd col now cs sig ev st
      = Except.ok (pureEvalAnd col cs sig ev, st2) := by
  match cs with
  | CondList.nil => exact ⟨st, by simp [evalAnd, pureEvalAnd]⟩
  | CondList.cons c rest =>
    have h1 : noAggC c = true := by
      have := h
      simp [noAggL, Bool.and_eq_true] at this
      exact this.1
    have h2 : noAggL rest = true := by
      have := h
      simp [noAggL, Bool.and_eq_true] at this
      exact this.2
    obtain ⟨st1, ihc⟩ := evalCond_noAgg col now c sig ev st h1
    cases hb : pureEval col c sig ev with
    | false =>
      rw [hb] at ihc
      exact ⟨st1, by simp [evalAnd, pureEvalAnd, ihc, hb]⟩
    | true =>
      rw [hb] at ihc
      obtain ⟨st2, ihr⟩ := evalAnd_noAgg col now rest sig ev st1 h2
      exact ⟨st2, by simp [evalAnd, pureEvalAnd, ihc, hb, ihr]⟩

theorem evalOr_noAgg (col : Collaborators) (now : Int) (cs : CondList)
    (sig : Signature) (ev : Event) (st : AggregationState)
    (h : noAggL cs = true) :
    ∃ st2, evalOr col now cs sig ev st
      = Except.ok (pureEvalOr col cs sig ev, st2) := by
  match cs with
  | CondList.nil => exact ⟨st, by simp [evalOr, pureEvalOr]⟩
  | CondList.cons c rest =>
    have h1 : noAggC c = true := by
      have := h
      simp [noAggL, Bool.and_eq_true] at this
      exact this.1
    have h2 : noAggL rest = true := by
      have := h
      simp [noAggL, Bool.and_eq_true] at this
      exact this.2
    obtain ⟨st1, ihc⟩ := evalCond_noAgg col now c sig ev st h1
    cases hb : pureEval col c sig ev with
    | true =>
      rw [hb] at ihc
      exact ⟨st1, by simp [evalOr, pureEvalOr, ihc, hb]⟩
    | false =>
      rw [hb] at ihc
      obtain ⟨st2, ihr⟩ := evalOr_noAgg col now rest sig ev st1 h2
      exact ⟨st2, by simp [evalOr, pureEvalOr, ihc, hb, ihr]⟩
end

/-- Claim C9 (amended): for every compiled condition with no aggregation
clause, the predicate's result is a function of `(rule, event)` only — it
equals the pure semantics `pureEval`, never raises, and is therefore the same
boolean for any store; and any composition of search references, `not`,
`and`, `or` and `X-of` containing no pipe node never reads or mutates the
store.  (The top-level pipe wrapper that `maybe_placeholders` makes the
parser attach even without an aggregation clause does append the matching
event to the store; see the counterexample.) -/
theorem spec_C9 :
    (∀ col now c sig ev st, noAggC c = true →
      ∃ st2, evalCond col now c sig ev st
        = Except.ok (pureEval col c sig ev, st2))
    ∧ (∀ col now c sig ev st, pipeFreeC c = true →
      evalCond col now c sig ev st = Except.ok (pureEval col c sig ev, st)) :=
  ⟨fun col now c sig ev st h => evalCond_noAgg col now c sig ev st h,
   fun col now c sig ev st h => evalCond_pipeFree col now c sig ev st h⟩

/-- Claim C1 (amended): for a compiled `base | aggregation` condition whose
base contains no nested pipe sub-condition, evaluation is two-phase: the
base evaluation leaves the store untouched; if the base is false the
predicate returns false with the store completely unchanged; if the base is
true the current event is appended to the store under the rule's identifier
before the aggregation predicate is evaluated against the updated store, and
the overall result is `base_result AND aggregation_result`. -/
theorem spec_C1 (col : Collaborators) (now : Int) (base : Cond) (a : Agg)
    (sig : Signature) (ev : Event) (st : AggregationState)
    (hb : pipeFreeC base = true) :
    evalCond col now base sig ev st = Except.ok (pureEval col base sig ev, st)
    ∧ (pureEval col base sig ev = false →
        evalCond col now (Cond.pipe_agg base a) sig ev st
          = Except.ok (false, st))
    ∧ (pureEval col base sig ev = true →
        evalCond col now (Cond.pipe_agg base a) sig ev st
          = evalAgg col now a sig ev (add_event st sig.id ev now)
        ∧ ∀ r st2,
            evalAgg col now a sig ev (add_event st sig.id ev now)
              = Except.ok (r, st2) →
            evalCond col now (Cond.pipe_agg base a) sig ev st
              = Except.ok ((pureEval col base sig ev && r), st2)) := by
  have hpf := evalCond_pipeFree col now base sig ev st hb
  refine ⟨hpf, ?_, ?_⟩
  · intro hfalse
    rw [hfalse] at hpf
    simp [evalCond, hpf]
  · intro htrue
    rw [htrue] at hpf
    constructor
    · simp [evalCond, hpf]
    · intro r st2 hagg
      simp [evalCond, hpf, hagg, htrue]

/-! ## Concrete fixtures, witnesses and counterexamples -/

/-- Refutes claim C3 as stated: with recorded history for the rule, a
timeframe with the recognized suffix `h` but non-numeric prefix makes
`cleanup_old_events` raise a `ValueError` instead of being a silent no-op. -/
theorem spec_C3_cex : cleanup_old_events stR "r" "xh" 100 = Except.error () := by
  decide

theorem spec_C3_w :
    _parse_timeframe "10x" = Except.ok none
    ∧ cleanup_old_events stR "r" "10x" 100 = Except.ok stR :=
  ⟨by decide, (spec_C3 stR "r" "10x" 100).2.2.1 (by decide)⟩

theorem spec_C5_w :
    goodState (add_event initialState "r1" ev0 0)
    ∧ dget (add_event initialState "r1" ev0 0).events "r1" = [ev0] := by
  have h := spec_C5.2.1 initialState "r1" ev0 0 (fun rid => rfl)
  exact ⟨h.1, by simpa using h.2.1⟩

theorem spec_C7_w :
    ∃ s2, cleanup_old_events stW7 "r" "3s" 6 = Except.ok s2
      ∧ (dget s2.events "r").zip (dget s2.timestamps "r")
          = ((dget stW7.events "r").zip (dget stW7.timestamps "r")).filter
              (fun p => decide (6 - 3 ≤ p.2)) :=
  spec_C7 stW7 "r" "3s" 6 3 (by decide)

theorem spec_C8_w :
    cleanup_old_events (cleanupApply stW7 "r" 6 3) "r" "3s" 6
      = Except.ok (cleanupApply stW7 "r" 6 3) :=
  spec_C8 stW7 (cleanupApply stW7 "r" 6 3) "r" "3s" 6 (by decide)

theorem spec_C2_w :
    evaluate initialState "r" "count" none none "<" 3 none none 0
      = Except.ok (false, { events := [("r", [])], timestamps := [] }) :=
  spec_C2 initialState "r" "count" none none "<" 3 none none 0 initialState
    (by decide) (by decide)

theorem spec_C4_w :
    evaluate stG4 "rG" "count" none (some "g") ">" 0 none (some ceG) 0
      = Except.ok (true, stG4)
    ∧ (true : Bool)
        = (match findGroup (pyGroupBy (dget stG4.events "rG") "g") (pyGet ceG "g") with
           | some part => _compare (_compute_aggregation "count" none part) ">" 0
           | none => false) :=
  ⟨by decide,
   (spec_C4 stG4 "rG" "count" none "g" ">" 0 none (some ceG) 0 true stG4
      (by decide) (by decide)).1 ceG rfl (by decide)⟩

/-- Refutes claim C4 as stated: the triggering event is supplied (the empty
dict) and its grouping key (`None`) matches no retained partition, so
evaluating only the matching partition would give `false`; but the code's
`if current_event:` truthiness test treats the empty dict as absent and falls
back to scanning all partitions, returning `true`. -/
theorem spec_C4_cex :
    evaluate stC4 "rc4" "count" none (some "g") ">" 0 none (some ([] : Event)) 0
      = Except.ok (true, stC4)
    ∧ findGroup (pyGroupBy (dget stC4.events "rc4") "g") (pyGet ([] : Event) "g")
        = none :=
  ⟨by decide, by decide⟩

/-- Refutes claim C10 as stated: with the empty dict supplied as triggering
event, no retained event carries its grouping key (`None`), so the claim
demands `false` without consulting the comparison; the code instead treats
the falsy empty dict as "no triggering event" and scans all partitions,
where `count() < 5` holds, returning `true`. -/
theorem spec_C10_cex :
    evaluate stC10 "rc10" "count" none (some "h") "<" 5 none (some ([] : Event)) 0
      = Except.ok (true, stC10)
    ∧ findGroup (pyGroupBy (dget stC10.events "rc10") "h") (pyGet ([] : Event) "h")
        = none :=
  ⟨by decide, by decide⟩

theorem spec_C10_w :
    evaluate stC10 "rc10" "count" none (some "h") "<" 5 none (some ceK) 0
      = Except.ok (false, stC10)
    ∧ (false : Bool) = false :=
  ⟨by decide,
   spec_C10 stC10 "rc10" "count" none "h" "<" 5 none ceK 0 false stC10
     (by decide) (by decide) (by decide) (by decide)⟩

theorem spec_C6_w :
    _compute_aggregation "sum" (some "x") [evM1, evM2, evM3]
      = _compute_aggregation "sum" (some "x")
          (([evM1, evM2, evM3] : List Event).filter
            (fun e => ((lookupKV e "x").bind Value.toFloat?).isSome))
    ∧ _compute_aggregation "sum" (some "x") [evM1, evM2, evM3] = 4 :=
  ⟨spec_C6.2.2.2 "sum" "x" [evM1, evM2, evM3] (Or.inl rfl), by
    have hx : extractValues "x" [evM1, evM2, evM3] = [(4 : ℚ)] := by decide
    simp [_compute_aggregation, hx, sumList]⟩

theorem spec_C9_w :
    (∃ st2, evalCond col0 0 (Cond.not_rule (Cond.search_id "a")) sig0 ev0 initialState
      = Except.ok (pureEval col0 (Cond.not_rule (Cond.search_id "a")) sig0 ev0, st2))
    ∧ evalCond col0 0 (Cond.not_rule (Cond.search_id "a")) sig0 ev0 initialState
      = Except.ok (pureEval col0 (Cond.not_rule (Cond.search_id "a")) sig0 ev0,
          initialState) :=
  ⟨spec_C9.1 col0 0 (Cond.not_rule (Cond.search_id "a")) sig0 ev0 initialState
     (by decide),
   spec_C9.2 col0 0 (Cond.not_rule (Cond.search_id "a")) sig0 ev0 initialState
     (by decide)⟩

/-- Refutes claim C9 as stated: the compiled form of a plain condition with
no aggregation clause (the pipe wrapper the parser always attaches, with the
`None` aggregation placeholder) appends the matching event to the store, so
the store is mutated even though the result is store-independent. -/
theorem spec_C9_cex :
    noAggC (Cond.pipe_plain (Cond.search_id "sel")) = true
    ∧ evalCond col0 0 (Cond.pipe_plain (Cond.search_id "sel")) sig0 ev0 initialState
        = Except.ok (true, add_event initialState "r1" ev0 0)
    ∧ add_event initialState "r1" ev0 0 ≠ initialState :=
  ⟨by decide, by decide, by decide⟩

theorem spec_C1_w :
    pipeFreeC (Cond.search_id "a") = true
    ∧ evalCond col0 0 (Cond.pipe_agg (Cond.search_id "a") aggAny) sig0 ev0
        initialState
      = evalAgg col0 0 aggAny sig0 ev0 (add_event initialState "r1" ev0 0) :=
  ⟨by decide,
   ((spec_C1 col0 0 (Cond.search_id "a") aggAny sig0 ev0 initialState
      (by decide)).2.2 (by decide)).1⟩

/-- Refutes claim C1 as stated: the base of the outer pipe is a parenthesized
pipe sub-condition `(a | count() > 10)`; its base matches, so the inner pipe
records the event, but its aggregation fails, so the outer base evaluates to
false.  The outer predicate returns false, yet the store is not "completely
unchanged": the event recorded by the nested pipe node remains. -/
theorem spec_C1_cex :
    evalCond col0 0
        (Cond.pipe_agg (Cond.pipe_agg (Cond.search_id "a") aggLow) aggAny)
        sig0 ev0 initialState
      = Except.ok (false, add_event initialState "r1" ev0 0)
    ∧ add_event initialState "r1" ev0 0 ≠ initialState :=
  ⟨by decide, by decide⟩
